import Mathlib

/-!
Shallow embedding of the clustering core of the Artworks-Reconstruction
repository (`clustering/clustering.py`, with the points where
`utils/clustering.py` differs embedded separately).

Conventions used throughout:
* Python floats are embedded as rationals (`ℚ`).
* numpy arrays are embedded as the nested tree type `NDArr`; numpy's
  `flatten`, `reshape(1, -1)` and integer indexing are embedded on it,
  with out-of-range or scalar indexing returning `Except.error` the way
  numpy raises `IndexError`.
* calls into external libraries (OpenCV `compareHist`, grayscale/HSV
  conversion, SSIM, scikit-learn `pairwise_distances`) are abstracted as
  function parameters of the embedding.
* Python exceptions are embedded with `Except String`.
-/

namespace ArtRec

/-- A single matrix cell assignment `M[i, j] = v` on a matrix embedded as a
function `ℕ → ℕ → ℚ`. -/
def writeCell (M : ℕ → ℕ → ℚ) (i j : ℕ) (v : ℚ) : ℕ → ℕ → ℚ :=
  fun x y => if x = i ∧ y = j then v else M x y

/-- One iteration of the shared pairwise loop body of the distance engines:
`M[i, j] = d i j` followed by `M[j, i] = d i j`. -/
def symmStep (d : ℕ → ℕ → ℚ) (M : ℕ → ℕ → ℚ) (p : ℕ × ℕ) : ℕ → ℕ → ℚ :=
  writeCell (writeCell M p.1 p.2 (d p.1 p.2)) p.2 p.1 (d p.1 p.2)

/-- The index pairs visited by `for i in range(n): for j in range(i+1, n)`,
in visiting order. -/
def pairs (n : ℕ) : List (ℕ × ℕ) :=
  (List.range n).flatMap fun i => (List.range' (i + 1) (n - (i + 1))).map fun j => (i, j)

/-- The full pairwise loop: fold the symmetric write over a pair list. -/
def fillSymm (d : ℕ → ℕ → ℚ) (init : ℕ → ℕ → ℚ) (L : List (ℕ × ℕ)) : ℕ → ℕ → ℚ :=
  L.foldl (symmStep d) init

/-- The pairwise loop whose body may raise: a raised exception aborts the
whole loop, otherwise the two symmetric writes are performed and the loop
continues. -/
def fillSymmM (dE : ℕ → ℕ → Except String ℚ) :
    (ℕ → ℕ → ℚ) → List (ℕ × ℕ) → Except String (ℕ → ℕ → ℚ)
  | init, [] => .ok init
  | init, p :: L =>
    match dE p.1 p.2 with
    | .error e => .error e
    | .ok v => fillSymmM dE (writeCell (writeCell init p.1 p.2 v) p.2 p.1 v) L

theorem mem_pairs {n i j : ℕ} : (i, j) ∈ pairs n ↔ i < j ∧ j < n := by
  simp only [pairs, List.mem_flatMap, List.mem_map, List.mem_range, List.mem_range'_1,
    Prod.mk.injEq]
  constructor
  · rintro ⟨a, ha, b, hb, rfl, rfl⟩
    omega
  · rintro ⟨hij, hjn⟩
    exact ⟨i, by omega, j, by omega, rfl, rfl⟩

theorem pairs_lt {n : ℕ} : ∀ p ∈ pairs n, p.1 < p.2 := by
  rintro ⟨i, j⟩ hp
  exact (mem_pairs.1 hp).1

/-- Closed form of the pure pairwise loop: a cell holds the distance of the
pair that wrote it, and the initial value if no pair wrote it. -/
theorem fillSymm_eq (d init : ℕ → ℕ → ℚ) :
    ∀ (L : List (ℕ × ℕ)), (∀ p ∈ L, p.1 < p.2) → ∀ x y,
      fillSymm d init L x y =
        if (x, y) ∈ L then d x y else if (y, x) ∈ L then d y x else init x y := by
  intro L
  induction L generalizing init with
  | nil => intro _ x y; simp [fillSymm]
  | cons p L ih =>
    intro hL x y
    obtain ⟨a, b⟩ := p
    have hab : a < b := hL (a, b) (List.mem_cons_self _ _)
    have hL' : ∀ q ∈ L, q.1 < q.2 := fun q hq => hL q (List.mem_cons_of_mem _ hq)
    have step : fillSymm d init ((a, b) :: L) = fillSymm d (symmStep d init (a, b)) L := rfl
    rw [step, ih _ hL']
    by_cases h1 : (x, y) ∈ L
    · simp [h1, List.mem_cons]
    · by_cases h2 : (y, x) ∈ L
      · have hyx' : y < x := hL' _ h2
        have hne : (x, y) ≠ (a, b) := fun h => by
          have hx : x = a := congrArg Prod.fst h
          have hy : y = b := congrArg Prod.snd h
          omega
        rw [if_neg (by simp [List.mem_cons, h1, hne]), if_pos (List.mem_cons_of_mem _ h2),
          if_pos h2, if_neg (by simp [List.mem_cons, h1, hne])]
      · simp only [List.mem_cons, h1, h2, or_false]
        simp only [symmStep, writeCell]
        by_cases hxa : x = a ∧ y = b
        · obtain ⟨rfl, rfl⟩ := hxa
          have c1 : ¬(x = y ∧ y = x) := by omega
          simp [c1]
        · by_cases hx2 : x = b ∧ y = a
          · obtain ⟨rfl, rfl⟩ := hx2
            have c2 : ¬(x = y ∧ y = x) := by omega
            simp [Prod.mk.injEq, c2]
          · have c4 : ¬(y = a ∧ x = b) := fun h => hx2 ⟨h.2, h.1⟩
            simp [Prod.mk.injEq, hxa, hx2, c4]

/-- If no pair of the list writes the cell `(x, y)`, a successful fallible
loop leaves that cell at its initial value. -/
theorem fillSymmM_untouched (dE : ℕ → ℕ → Except String ℚ) :
    ∀ (L : List (ℕ × ℕ)) (init : ℕ → ℕ → ℚ) (x y : ℕ),
      (∀ p ∈ L, ¬(x = p.1 ∧ y = p.2) ∧ ¬(x = p.2 ∧ y = p.1)) →
      ∀ M, fillSymmM dE init L = .ok M → M x y = init x y := by
  intro L
  induction L with
  | nil =>
    intro init x y _ M h
    simp only [fillSymmM, Except.ok.injEq] at h
    rw [← h]
  | cons p L ih =>
    intro init x y hxy M h
    have hhd := hxy p (List.mem_cons_self _ _)
    have htl : ∀ q ∈ L, ¬(x = q.1 ∧ y = q.2) ∧ ¬(x = q.2 ∧ y = q.1) :=
      fun q hq => hxy q (List.mem_cons_of_mem _ hq)
    rw [fillSymmM] at h
    cases hd : dE p.1 p.2 with
    | error e => rw [hd] at h; cases h
    | ok v =>
      rw [hd] at h
      rw [ih _ x y htl M h]
      simp [writeCell, hhd.1, hhd.2]

/-- A successful fallible loop over pairs `(p.1 < p.2)` gives, at a visited
pair `(i, j)`, exactly the value returned by the loop body, written to both
symmetric cells. -/
theorem fillSymmM_mem (dE : ℕ → ℕ → Except String ℚ) :
    ∀ (L : List (ℕ × ℕ)) (init : ℕ → ℕ → ℚ) (i j : ℕ),
      (∀ p ∈ L, p.1 < p.2) → (i, j) ∈ L →
      ∀ M, fillSymmM dE init L = .ok M → dE i j = .ok (M i j) ∧ M j i = M i j := by
  intro L
  induction L with
  | nil => intro init i j _ hm; cases hm
  | cons p L ih =>
    intro init i j hL hm M h
    have hij : i < j := hL (i, j) hm
    have hL' : ∀ q ∈ L, q.1 < q.2 := fun q hq => hL q (List.mem_cons_of_mem _ hq)
    rw [fillSymmM] at h
    cases hd : dE p.1 p.2 with
    | error e => rw [hd] at h; cases h
    | ok v =>
      rw [hd] at h
      by_cases hmem : (i, j) ∈ L
      · exact ih _ i j hL' hmem M h
      · have hp : p = (i, j) := by
          rcases List.mem_cons.1 hm with h' | h'
          · exact h'.symm
          · exact absurd h' hmem
        subst hp
        have u1 : M i j = writeCell (writeCell init i j v) j i v i j := by
          refine fillSymmM_untouched dE L _ i j ?_ M h
          rintro ⟨q1, q2⟩ hq
          have hq12 := hL' _ hq
          constructor
          · rintro ⟨rfl, rfl⟩
            exact hmem hq
          · rintro ⟨rfl, rfl⟩
            simp at hq12
            omega
        have u2 : M j i = writeCell (writeCell init i j v) j i v j i := by
          refine fillSymmM_untouched dE L _ j i ?_ M h
          rintro ⟨q1, q2⟩ hq
          have hq12 := hL' _ hq
          constructor
          · rintro ⟨rfl, rfl⟩
            simp at hq12
            omega
          · rintro ⟨rfl, rfl⟩
            exact hmem hq
        have e1 : writeCell (writeCell init i j v) j i v i j = v := by
          have c1 : ¬(i = j ∧ j = i) := by omega
          simp [writeCell, c1]
        have e2 : writeCell (writeCell init i j v) j i v j i = v := by
          simp [writeCell]
        rw [u1, u2, e1, e2]
        exact ⟨hd, rfl⟩

/-! ### numpy arrays embedded as nested trees of rationals -/

inductive NDArr where
  | scalar : ℚ → NDArr
  | arr : List NDArr → NDArr

/-- The values of an array in C (row-major) order, as produced by numpy's
`flatten`. -/
def NDArr.flattenVals : NDArr → List ℚ
  | .scalar q => [q]
  | .arr [] => []
  | .arr (a :: l) => a.flattenVals ++ (NDArr.arr l).flattenVals

/-- numpy `a.flatten()`: the 1-D array of the values in C order. -/
def NDArr.flatten (a : NDArr) : NDArr :=
  .arr (a.flattenVals.map .scalar)

/-- numpy `a.reshape(1, -1)`: a 1×len row matrix of the values in C order. -/
def NDArr.reshapeRow (a : NDArr) : NDArr :=
  .arr [.arr (a.flattenVals.map .scalar)]

/-- The number of values held by an array (the length of a row vector). -/
def NDArr.rowLen (a : NDArr) : ℕ :=
  a.flattenVals.length

/-- numpy integer indexing `a[i]`: out of bounds raises `IndexError`, and
indexing into a scalar raises `IndexError: invalid index to scalar variable`
the way numpy does on a flattened 1-D array. -/
def NDArr.get : NDArr → ℕ → Except String NDArr
  | .scalar _, _ => .error "IndexError: invalid index to scalar variable"
  | .arr l, i =>
    match l[i]? with
    | some a => .ok a
    | none => .error "IndexError: index out of bounds"

/-- The numpy shape of a (regular) array. -/
def NDArr.shape : NDArr → List ℕ
  | .scalar _ => []
  | .arr [] => [0]
  | .arr (a :: l) => (l.length + 1) :: a.shape

/-- A 1-D array of length `n` with entries `f k`. -/
def grid1D (n : ℕ) (f : ℕ → ℚ) : NDArr :=
  .arr ((List.range n).map fun k => .scalar (f k))

/-- A 2-D `h × w` array with entries `f r c`. -/
def grid2D (h w : ℕ) (f : ℕ → ℕ → ℚ) : NDArr :=
  .arr ((List.range h).map fun r => grid1D w (f r))

/-- A 3-D `a × b × c` array with entries `f x y z`. -/
def grid3D (a b c : ℕ) (f : ℕ → ℕ → ℕ → ℚ) : NDArr :=
  .arr ((List.range a).map fun x => grid2D b c (f x))

theorem flattenVals_arr (l : List NDArr) :
    (NDArr.arr l).flattenVals = l.flatMap NDArr.flattenVals := by
  induction l with
  | nil => simp [NDArr.flattenVals]
  | cons a l ih => simp [NDArr.flattenVals, ih]

theorem flattenVals_map_scalar (l : List ℚ) :
    (NDArr.arr (l.map NDArr.scalar)).flattenVals = l := by
  induction l with
  | nil => simp [NDArr.flattenVals]
  | cons q l ih =>
    simpa [NDArr.flattenVals] using ih

theorem rowLen_reshapeRow (a : NDArr) : a.reshapeRow.rowLen = a.flattenVals.length := by
  simp [NDArr.reshapeRow, NDArr.rowLen, NDArr.flattenVals, flattenVals_map_scalar]

theorem flattenVals_grid1D (n : ℕ) (f : ℕ → ℚ) :
    (grid1D n f).flattenVals = (List.range n).map f := by
  have : (List.range n).map (fun k => NDArr.scalar (f k)) =
      ((List.range n).map f).map NDArr.scalar := by
    rw [List.map_map]
    simp [Function.comp_def]
  rw [grid1D, this, flattenVals_map_scalar]

theorem length_flattenVals_grid2D (h w : ℕ) (f : ℕ → ℕ → ℚ) :
    (grid2D h w f).flattenVals.length = h * w := by
  rw [grid2D, flattenVals_arr, List.flatMap_map]
  rw [List.length_flatMap]
  have : ∀ r ∈ List.range h, ((grid1D w (f r)).flattenVals).length = w := by
    intro r _
    rw [flattenVals_grid1D]
    simp
  calc ((List.range h).map fun r => ((grid1D w (f r)).flattenVals).length).sum
      = ((List.range h).map fun _ => w).sum := by
        exact congrArg List.sum (List.map_congr_left this)
    _ = h * w := by
        rw [List.map_const']
        simp [List.sum_replicate, Nat.smul_one_eq_cast]

theorem length_flattenVals_grid3D (a b c : ℕ) (f : ℕ → ℕ → ℕ → ℚ) :
    (grid3D a b c f).flattenVals.length = a * b * c := by
  rw [grid3D, flattenVals_arr, List.flatMap_map]
  rw [List.length_flatMap]
  have : ∀ x ∈ List.range a, ((grid2D b c (f x)).flattenVals).length = b * c := by
    intro x _
    exact length_flattenVals_grid2D b c (f x)
  calc ((List.range a).map fun x => ((grid2D b c (f x)).flattenVals).length).sum
      = ((List.range a).map fun _ => b * c).sum := by
        exact congrArg List.sum (List.map_congr_left this)
    _ = a * b * c := by
        rw [List.map_const']
        simp [List.sum_replicate, Nat.smul_one_eq_cast, Nat.mul_assoc]

theorem shape_arr_map_scalar (l : List ℚ) :
    (NDArr.arr (l.map NDArr.scalar)).shape = [l.length] := by
  cases l <;> simp [NDArr.shape]

theorem shape_flatten (a : NDArr) : a.flatten.shape = [a.flattenVals.length] := by
  rw [NDArr.flatten, shape_arr_map_scalar]

/-! ### `clustering/clustering.py` -/

namespace Clustering

/-- `f1` from `clustering/clustering.py`: F1 score with the zero-denominator
guard. -/
def f1 (precision_score recall_score : ℚ) : ℚ :=
  if precision_score + recall_score = 0 then 0
  else 2 * (precision_score * recall_score) / (precision_score + recall_score)

/-- The three OpenCV `compareHist` modes used by the histogram engine.
OpenCV is an external library, so the three comparison measures are
abstracted as function parameters. -/
structure HistCmp where
  correl : List ℚ → List ℚ → ℚ
  chisqr : List ℚ → List ℚ → ℚ
  intersect : List ℚ → List ℚ → ℚ

/-- Inner helper `compute_histograms_similarity` of
`compute_color_histogram_dist_matrix`. -/
def compute_histograms_similarity (c : HistCmp) (histogram1 histogram2 : List ℚ) : ℚ :=
  let correlation := c.correl histogram1 histogram2
  let chi_square_distance := c.chisqr histogram1 histogram2
  let intersection := c.intersect histogram1 histogram2 / histogram1.sum
  let distance := 0.5 * correlation + 0.25 * intersection - 0.25 * chi_square_distance
  if distance < 0 then -distance else distance

/-- `compute_color_histogram_dist_matrix`: pairwise loop over `i < j`,
optionally blending in the distances to a reference histogram, writing each
value symmetrically into a zero-initialized matrix. -/
def compute_color_histogram_dist_matrix (c : HistCmp) (histograms : List (List ℚ))
    (histogram_image_ref : Option (List ℚ)) : ℕ → ℕ → ℚ :=
  fillSymm
    (fun i j =>
      let distance := compute_histograms_similarity c (histograms.getD i []) (histograms.getD j [])
      match histogram_image_ref with
      | none => distance
      | some r =>
        let distance_hist_i_ref := compute_histograms_similarity c (histograms.getD i []) r
        let distance_hist_j_ref := compute_histograms_similarity c (histograms.getD j []) r
        distance * 0.25 + distance_hist_i_ref * 0.5 + distance_hist_j_ref * 0.5)
    (fun _ _ => 0) (pairs histograms.length)

/-- `compute_ssim_scores_fragment_per_fragment`: grayscale conversion and
SSIM are external (`cv.cvtColor`, `skimage`), abstracted as parameters; the
matrix is initialized with `np.ones`. -/
def compute_ssim_scores_fragment_per_fragment {α : Type} [Inhabited α]
    (cvtColorGray : α → α) (structural_similarity : α → α → ℚ)
    (fragments : List α) : ℕ → ℕ → ℚ :=
  fillSymm
    (fun i j =>
      let fragment_i_gray := cvtColorGray (fragments.getD i default)
      let fragment_j_gray := cvtColorGray (fragments.getD j default)
      structural_similarity fragment_i_gray fragment_j_gray)
    (fun _ _ => 1) (pairs fragments.length)

/-- `compute_ssim_scores_fragment_per_fragment_hsv`: HSV conversion and
channel split abstracted as parameters; the score is the mean of the three
per-channel SSIM scores; matrix initialized with `np.ones`. -/
def compute_ssim_scores_fragment_per_fragment_hsv {α : Type} [Inhabited α]
    (cvtColorHsv : α → α) (split : α → α × α × α) (structural_similarity : α → α → ℚ)
    (fragments : List α) : ℕ → ℕ → ℚ :=
  fillSymm
    (fun i j =>
      let fragment_i_hsv := cvtColorHsv (fragments.getD i default)
      let fragment_j_hsv := cvtColorHsv (fragments.getD j default)
      let ci := split fragment_i_hsv
      let cj := split fragment_j_hsv
      let score_h := structural_similarity ci.1 cj.1
      let score_s := structural_similarity ci.2.1 cj.2.1
      let score_v := structural_similarity ci.2.2 cj.2.2
      (score_h + score_s + score_v) / 3)
    (fun _ _ => 1) (pairs fragments.length)

/-- `reshape_jacobians`: reads `jacobian[0][0]`, `jacobian[0][1]`,
`jacobian[1][1]` (twice — the last line reads `jacobian[1][1]`, not
`jacobian[1][0]`) and reshapes each to a row vector, propagating any
`IndexError` of the nested indexing. -/
def reshape_jacobians (jacobian : NDArr) : Except String (NDArr × NDArr × NDArr × NDArr) :=
  match (jacobian.get 0).bind (·.get 0) with
  | .error e => .error e
  | .ok gx0 =>
    match (jacobian.get 0).bind (·.get 1) with
    | .error e => .error e
    | .ok gx_gray0 =>
      match (jacobian.get 1).bind (·.get 1) with
      | .error e => .error e
      | .ok gy0 =>
        match (jacobian.get 1).bind (·.get 1) with
        | .error e => .error e
        | .ok gy_gray0 =>
          .ok (gx0.reshapeRow, gx_gray0.reshapeRow, gy0.reshapeRow, gy_gray0.reshapeRow)

/-- `np.mean` of a list of scalars. -/
def npMean (l : List ℚ) : ℚ := l.sum / l.length

def insertSorted (x : ℚ) : List ℚ → List ℚ
  | [] => [x]
  | y :: ys => if x ≤ y then x :: y :: ys else y :: insertSorted x ys

def sortAsc (l : List ℚ) : List ℚ := l.foldr insertSorted []

/-- `np.median` of a list of scalars: sort ascending, take the middle value
(or the mean of the two middle values for even length). -/
def npMedian (l : List ℚ) : ℚ :=
  let s := sortAsc l
  if l.length % 2 = 1 then s.getD (l.length / 2) 0
  else (s.getD (l.length / 2 - 1) 0 + s.getD (l.length / 2) 0) / 2

/-- Inner helper `compute_jacobians_distance` of
`compute_jacobians_dist_matrix`; scikit-learn's `pairwise_distances` (with
its `metric` argument) is external and abstracted as `pairwise_dist`. The
`combine` validation happened before the loop, so any other string leaves
the initial `distance = 0`. -/
def compute_jacobians_distance (pairwise_dist : NDArr → NDArr → ℚ) (combine : String)
    (gx gx_gray gy gy_gray gx_2 gx_gray_2 gy_2 gy_gray_2 : NDArr) : ℚ :=
  let dist_gx := pairwise_dist gx gx_2
  let dist_gy := pairwise_dist gy gy_2
  let dist_gx_gray := pairwise_dist gx_gray gx_gray_2
  let dist_gy_gray := pairwise_dist gy_gray gy_gray_2
  if combine = "mean" then npMean [dist_gx, dist_gy, dist_gx_gray, dist_gy_gray]
  else if combine = "median" then npMedian [dist_gx, dist_gy, dist_gx_gray, dist_gy_gray]
  else 0

/-- `compute_jacobians_dist_matrix`: validates `combine` before the loop
(raising `ValueError` otherwise), then runs the pairwise loop, reshaping the
two jacobians (and the reference jacobian, if any) and optionally blending
the distances to the reference. -/
def compute_jacobians_dist_matrix (pairwise_dist : NDArr → NDArr → ℚ)
    (jacobians : List NDArr) (jacobian_image_ref : Option NDArr) (combine : String) :
    Except String (ℕ → ℕ → ℚ) :=
  if combine ≠ "mean" ∧ combine ≠ "median" then
    .error "combine must be 'mean' or 'median'"
  else
    fillSymmM
      (fun i j => do
        let (gx, gx_gray, gy, gy_gray) ← reshape_jacobians (jacobians.getD i (.arr []))
        let (gx_2, gx_gray_2, gy_2, gy_gray_2) ← reshape_jacobians (jacobians.getD j (.arr []))
        let distance := compute_jacobians_distance pairwise_dist combine
          gx gx_gray gy gy_gray gx_2 gx_gray_2 gy_2 gy_gray_2
        match jacobian_image_ref with
        | none => pure distance
        | some jr => do
          let (gx_ref, gx_gray_ref, gy_ref, gy_gray_ref) ← reshape_jacobians jr
          let distance_jacobians_i_ref := compute_jacobians_distance pairwise_dist combine
            gx gx_gray gy gy_gray gx_ref gx_gray_ref gy_ref gy_gray_ref
          let distance_jacobians_j_ref := compute_jacobians_distance pairwise_dist combine
            gx_2 gx_gray_2 gy_2 gy_gray_2 gx_ref gx_gray_ref gy_ref gy_gray_ref
          pure (distance * 0.25 + distance_jacobians_i_ref * 0.5 + distance_jacobians_j_ref * 0.5))
      (fun _ _ => 0) (pairs jacobians.length)

/-- An image as far as the gradient pipeline observes it: its pixel grid
dimensions (`shape[0]` is the height, `shape[1]` the width). -/
structure PImage where
  height : ℕ
  width : ℕ

/-- Modelled from the spec: `compute_image_gradient` lives in
`feature_extraction/feature_extraction.py`, which is not under `src/`.
Per §3 and §6 of the spec it returns a 2×2 nested structure — index 0 holds
the x-direction gradients, index 1 the y-direction gradients — each holding
a color-channel gradient and a grayscale gradient, each a 2-D array matching
the (resized) image dimensions. The gradient values themselves are
abstracted as the parameter `gval`. -/
def compute_image_gradient (gval : ℕ → ℕ → ℕ → ℕ → ℚ) (height width : ℕ) : NDArr :=
  .arr [.arr [grid2D height width (gval 0 0), grid2D height width (gval 0 1)],
        .arr [grid2D height width (gval 1 0), grid2D height width (gval 1 1)]]

/-- Inner helper `compute_jacobian` of `compute_jacobians`:
`cv.resize(image, (max_width, max_height))` yields a
`max_height × max_width` image and `cv.cvtColor` to HSV changes values but
not shape, so the gradient field has `max_height × max_width` leaves; the
resized pixel (hence gradient) values are abstracted through `gval image`. -/
def compute_jacobian (gval : PImage → ℕ → ℕ → ℕ → ℕ → ℚ) (image : PImage)
    (max_width max_height : ℕ) (flatten : Bool) : NDArr :=
  let jacobian := compute_image_gradient (gval image) max_height max_width
  if flatten then jacobian.flatten else jacobian

/-- `max(image.shape[1] for image in images)` extended by the reference
image's width, as in `compute_jacobians` (for a nonempty list, folding `max`
with base 0 agrees with Python's `max` on naturals). -/
def batch_max_width (images : List PImage) (image_ref : Option PImage) : ℕ :=
  let m := (images.map PImage.width).foldr max 0
  match image_ref with
  | some r => max m r.width
  | none => m

/-- `max(image.shape[0] for image in images)` extended by the reference
image's height. -/
def batch_max_height (images : List PImage) (image_ref : Option PImage) : ℕ :=
  let m := (images.map PImage.height).foldr max 0
  match image_ref with
  | some r => max m r.height
  | none => m

/-- `compute_jacobians`: on an empty image list Python's `max()` raises;
otherwise every image (and the reference, if any) is resized to the shared
maximum dimensions and its gradient field computed, optionally flattened. -/
def compute_jacobians (gval : PImage → ℕ → ℕ → ℕ → ℕ → ℚ) (images : List PImage)
    (image_ref : Option PImage) (flatten : Bool) :
    Except String (List NDArr × Option NDArr) :=
  match images with
  | [] => .error "ValueError: max() arg is an empty sequence"
  | _ :: _ =>
    let max_width := batch_max_width images image_ref
    let max_height := batch_max_height images image_ref
    .ok (images.map fun image => compute_jacobian gval image max_width max_height flatten,
         image_ref.map fun r => compute_jacobian gval r max_width max_height flatten)

/-- `compute_color_histograms`: `cv.calcHist` with bins `[8, 8, 8]` followed
by `cv.normalize` produces a normalized 8×8×8 array; the bin values are
abstracted as `histOf image`, OpenCV being external. Fragment histograms are
flattened when `flatten` holds; the reference histogram is computed after
the loop and the `flatten` flag is not applied to it. -/
def compute_color_histograms {α : Type} (histOf : α → ℕ → ℕ → ℕ → ℚ)
    (images : List α) (image_ref : Option α) (flatten : Bool) :
    List NDArr × Option NDArr :=
  let histograms_fragments := images.map fun image =>
    let hist_src := grid3D 8 8 8 (histOf image)
    if flatten then hist_src.flatten else hist_src
  match image_ref with
  | some r => (histograms_fragments, some (grid3D 8 8 8 (histOf r)))
  | none => (histograms_fragments, none)

/-- `fragment_path.split(os.path.sep)[-1]`: the characters after the last
path separator. -/
def basenameAux (sep : Char) : List Char → List Char → List Char
  | acc, [] => acc
  | acc, ch :: cs => if ch = sep then basenameAux sep [] cs else basenameAux sep (acc ++ [ch]) cs

def basename (path : String) : String :=
  ⟨basenameAux (Char.ofNat 47) [] path.data⟩
-- `Char.ofNat 47` is the path separator character `/`.

/-- The pure content of `create_cluster_dirs`: the list of
`(cluster directory, file name)` copy operations performed by the loop
`for idx, label in enumerate(labels)`, where `fragment_paths[idx]` raises
`IndexError` when `idx` is out of range. -/
def create_cluster_dirs_plan (fragment_paths : List String) (labels : List Int) :
    Except String (List (String × String)) :=
  (List.range labels.length).foldlM
    (fun acc idx =>
      let label := labels.getD idx 0
      let cluster_dir := if label = -1 then "unclustered" else "cluster_" ++ toString label
      match fragment_paths[idx]? with
      | none => Except.error "IndexError: list index out of range"
      | some fragment_path =>
        Except.ok (acc ++ [(cluster_dir, basename fragment_path)]))
    []

end Clustering

/-! ### `utils/clustering.py` (only where it differs) -/

namespace Utils

/-- `f1` from `utils/clustering.py`: no zero-denominator guard, so Python
raises `ZeroDivisionError` when `precision_score + recall_score == 0`. -/
def f1 (precision_score recall_score : ℚ) : Except String ℚ :=
  if precision_score + recall_score = 0 then
    .error "ZeroDivisionError: float division by zero"
  else
    .ok (2 * (precision_score * recall_score) / (precision_score + recall_score))

end Utils

/-! ### Helper lemmas about the engines -/

theorem ite_neg_eq_abs (D : ℚ) : (if D < 0 then -D else D) = |D| := by
  rcases lt_or_ge D 0 with h | h
  · rw [if_pos h, abs_of_neg h]
  · rw [if_neg (not_lt.2 h), abs_of_nonneg h]

theorem compute_histograms_similarity_eq_abs (c : Clustering.HistCmp) (h1 h2 : List ℚ) :
    Clustering.compute_histograms_similarity c h1 h2 =
      |0.5 * c.correl h1 h2 + 0.25 * (c.intersect h1 h2 / h1.sum) - 0.25 * c.chisqr h1 h2| :=
  ite_neg_eq_abs _

theorem compute_histograms_similarity_nonneg (c : Clustering.HistCmp) (h1 h2 : List ℚ) :
    0 ≤ Clustering.compute_histograms_similarity c h1 h2 := by
  rw [compute_histograms_similarity_eq_abs]
  exact abs_nonneg _

theorem hist_pair_body_nonneg (c : Clustering.HistCmp) (hists : List (List ℚ))
    (r : Option (List ℚ)) (i j : ℕ) :
    0 ≤ (match r with
         | none => Clustering.compute_histograms_similarity c (hists.getD i []) (hists.getD j [])
         | some rr =>
            Clustering.compute_histograms_similarity c (hists.getD i []) (hists.getD j []) * 0.25 +
            Clustering.compute_histograms_similarity c (hists.getD i []) rr * 0.5 +
            Clustering.compute_histograms_similarity c (hists.getD j []) rr * 0.5) := by
  cases r with
  | none => exact compute_histograms_similarity_nonneg c _ _
  | some rr =>
    have a1 := compute_histograms_similarity_nonneg c (hists.getD i []) (hists.getD j [])
    have a2 := compute_histograms_similarity_nonneg c (hists.getD i []) rr
    have a3 := compute_histograms_similarity_nonneg c (hists.getD j []) rr
    have w1 : (0 : ℚ) ≤ 0.25 := by norm_num
    have w2 : (0 : ℚ) ≤ 0.5 := by norm_num
    exact add_nonneg (add_nonneg (mul_nonneg a1 w1) (mul_nonneg a2 w2)) (mul_nonneg a3 w2)

theorem exceptBind_ok {α β : Type} (a : α) (f : α → Except String β) :
    (Except.ok a : Except String α) >>= f = f a := rfl

theorem exceptBind_error {α β : Type} (e : String) (f : α → Except String β) :
    (Except.error e : Except String α) >>= f = Except.error e := rfl

theorem exceptPure_eq_ok {α : Type} (a : α) :
    (pure a : Except String α) = Except.ok a := rfl

/-! ### Claim theorems -/

/-- C1: for a pair of histogram vectors compared without a reference
histogram, the pairwise distance written into the matrix by
`compute_color_histogram_dist_matrix` equals the absolute value of
`0.5*correlation + 0.25*(intersection/sum(h1)) - 0.25*chi_square`. -/
theorem c1_hist_distance_formula (c : Clustering.HistCmp) (hists : List (List ℚ))
    (i j : ℕ) (hij : i < j) (hjn : j < hists.length) :
    Clustering.compute_color_histogram_dist_matrix c hists none i j =
      |0.5 * c.correl (hists.getD i []) (hists.getD j [])
        + 0.25 * (c.intersect (hists.getD i []) (hists.getD j []) / (hists.getD i []).sum)
        - 0.25 * c.chisqr (hists.getD i []) (hists.getD j [])| := by
  unfold Clustering.compute_color_histogram_dist_matrix
  rw [fillSymm_eq _ _ _ pairs_lt i j, if_pos (mem_pairs.2 ⟨hij, hjn⟩)]
  exact compute_histograms_similarity_eq_abs c _ _

def histCmpW : Clustering.HistCmp :=
  ⟨fun _ _ => 1, fun _ _ => 3, fun _ _ => 2⟩

theorem c1_hist_distance_formula_witness :
    (0 : ℕ) < 1 ∧ 1 < ([[(1 : ℚ)], [(2 : ℚ)]] : List (List ℚ)).length ∧
    Clustering.compute_color_histogram_dist_matrix histCmpW [[(1 : ℚ)], [(2 : ℚ)]] none 0 1 =
      |0.5 * histCmpW.correl [(1 : ℚ)] [(2 : ℚ)]
        + 0.25 * (histCmpW.intersect [(1 : ℚ)] [(2 : ℚ)] / ([(1 : ℚ)] : List ℚ).sum)
        - 0.25 * histCmpW.chisqr [(1 : ℚ)] [(2 : ℚ)]| :=
  ⟨by decide, by decide,
    c1_hist_distance_formula histCmpW [[(1 : ℚ)], [(2 : ℚ)]] 0 1 (by decide) (by decide)⟩

/-- C4: `compute_color_histogram_dist_matrix`, with or without a reference
histogram, produces a matrix that is symmetric and entrywise
non-negative. -/
theorem c4_hist_matrix_symm_nonneg (c : Clustering.HistCmp) (hists : List (List ℚ))
    (r : Option (List ℚ)) (i j : ℕ) :
    Clustering.compute_color_histogram_dist_matrix c hists r i j =
      Clustering.compute_color_histogram_dist_matrix c hists r j i ∧
    0 ≤ Clustering.compute_color_histogram_dist_matrix c hists r i j := by
  unfold Clustering.compute_color_histogram_dist_matrix
  rw [fillSymm_eq _ _ _ pairs_lt i j, fillSymm_eq _ _ _ pairs_lt j i]
  by_cases h1 : (i, j) ∈ pairs hists.length
  · have h2 : (j, i) ∉ pairs hists.length := by
      intro hc
      have e1 := (mem_pairs.1 h1).1
      have e2 := (mem_pairs.1 hc).1
      omega
    rw [if_pos h1, if_neg h2, if_pos h1]
    exact ⟨rfl, hist_pair_body_nonneg c hists r i j⟩
  · by_cases h2 : (j, i) ∈ pairs hists.length
    · rw [if_neg h1, if_pos h2, if_pos h2]
      exact ⟨rfl, hist_pair_body_nonneg c hists r j i⟩
    · rw [if_neg h1, if_neg h2, if_neg h2, if_neg h1]
      exact ⟨rfl, le_refl 0⟩

/-- C3: `reshape_jacobians` reads the slot `jacobian[1][1]` for both the
`gy` and the `gy_gray` outputs, so whenever it succeeds the two returned row
vectors are identical; on a 2×2 gradient field it returns
`(j[0][0], j[0][1], j[1][1], j[1][1])` reshaped — the x-gradient grayscale
slot `j[0][1]` comes back as `gx_gray` and the y-gradient color slot
`j[1][0]` is never read. -/
theorem c3_reshape_gy_equals_gy_gray (j : NDArr) (g1 g2 g3 g4 : NDArr)
    (h : Clustering.reshape_jacobians j = .ok (g1, g2, g3, g4)) :
    g3 = g4 ∧
    ∀ a00 a01 a10 a11 : NDArr,
      Clustering.reshape_jacobians (.arr [.arr [a00, a01], .arr [a10, a11]]) =
        .ok (a00.reshapeRow, a01.reshapeRow, a11.reshapeRow, a11.reshapeRow) := by
  constructor
  · unfold Clustering.reshape_jacobians at h
    rcases hA : (j.get 0).bind (·.get 0) with e | gxA <;> rw [hA] at h
    · exact absurd h (by simp)
    · rcases hB : (j.get 0).bind (·.get 1) with e | gxB <;> rw [hB] at h
      · exact absurd h (by simp)
      · rcases hC : (j.get 1).bind (·.get 1) with e | gyC <;> rw [hC] at h
        · exact absurd h (by simp)
        · simp only [Except.ok.injEq, Prod.mk.injEq] at h
          obtain ⟨-, -, h3, h4⟩ := h
          rw [← h3, ← h4]
  · intro a00 a01 a10 a11
    rfl

theorem c3_reshape_gy_equals_gy_gray_witness :
    Clustering.reshape_jacobians (.arr [.arr [.scalar 1, .scalar 2], .arr [.scalar 3, .scalar 4]]) =
      .ok ((NDArr.scalar 1).reshapeRow, (NDArr.scalar 2).reshapeRow,
           (NDArr.scalar 4).reshapeRow, (NDArr.scalar 4).reshapeRow) ∧
    (NDArr.scalar 4).reshapeRow = (NDArr.scalar 4).reshapeRow :=
  ⟨rfl,
    (c3_reshape_gy_equals_gy_gray
      (.arr [.arr [.scalar 1, .scalar 2], .arr [.scalar 3, .scalar 4]])
      (NDArr.scalar 1).reshapeRow (NDArr.scalar 2).reshapeRow
      (NDArr.scalar 4).reshapeRow (NDArr.scalar 4).reshapeRow rfl).1⟩

/-- C5: a `combine` value other than `"mean"` and `"median"` makes
`compute_jacobians_dist_matrix` fail with the configuration error raised by
the validation that precedes the pairwise loop — the error is returned for
every jacobian list and reference, before any distance is computed. -/
theorem c5_invalid_combine_rejected (pd : NDArr → NDArr → ℚ) (jacs : List NDArr)
    (jref : Option NDArr) (combine : String)
    (h1 : combine ≠ "mean") (h2 : combine ≠ "median") :
    Clustering.compute_jacobians_dist_matrix pd jacs jref combine =
      .error "combine must be 'mean' or 'median'" := by
  unfold Clustering.compute_jacobians_dist_matrix
  rw [if_pos ⟨h1, h2⟩]

theorem c5_invalid_combine_rejected_witness :
    ("invalid" ≠ "mean") ∧ ("invalid" ≠ "median") ∧
    Clustering.compute_jacobians_dist_matrix (fun _ _ => 0) [] none "invalid" =
      .error "combine must be 'mean' or 'median'" :=
  ⟨by decide, by decide,
    c5_invalid_combine_rejected (fun _ _ => 0) [] none "invalid" (by decide) (by decide)⟩

/-- C8: the pairwise loops of the distance engines never write a diagonal
cell: the histogram distance matrix and the jacobian distance matrix keep
their zero initialization on the diagonal, and both SSIM score matrices
keep their ones initialization there. -/
theorem c8_diagonal_keeps_initialization {α : Type} [Inhabited α]
    (c : Clustering.HistCmp) (hists : List (List ℚ)) (r : Option (List ℚ))
    (gray : α → α) (ssim : α → α → ℚ) (frags : List α)
    (hsv : α → α) (split : α → α × α × α) (ssim2 : α → α → ℚ) (frags2 : List α)
    (pd : NDArr → NDArr → ℚ) (jacs : List NDArr) (jref : Option NDArr) (combine : String)
    (M : ℕ → ℕ → ℚ)
    (hM : Clustering.compute_jacobians_dist_matrix pd jacs jref combine = .ok M)
    (i : ℕ) :
    Clustering.compute_color_histogram_dist_matrix c hists r i i = 0 ∧
    Clustering.compute_ssim_scores_fragment_per_fragment gray ssim frags i i = 1 ∧
    Clustering.compute_ssim_scores_fragment_per_fragment_hsv hsv split ssim2 frags2 i i = 1 ∧
    M i i = 0 := by
  have diag_pure : ∀ (d : ℕ → ℕ → ℚ) (init : ℕ → ℕ → ℚ) (n : ℕ),
      fillSymm d init (pairs n) i i = init i i := by
    intro d init n
    rw [fillSymm_eq _ _ _ pairs_lt i i]
    have hno : (i, i) ∉ pairs n := fun hc => absurd (mem_pairs.1 hc).1 (lt_irrefl i)
    rw [if_neg hno, if_neg hno]
  refine ⟨diag_pure _ _ _, diag_pure _ _ _, diag_pure _ _ _, ?_⟩
  unfold Clustering.compute_jacobians_dist_matrix at hM
  by_cases hv : combine ≠ "mean" ∧ combine ≠ "median"
  · rw [if_pos hv] at hM
    exact absurd hM (by simp)
  · rw [if_neg hv] at hM
    have hu := fillSymmM_untouched _ (pairs jacs.length) (fun _ _ => 0) i i ?_ M hM
    · exact hu
    · rintro ⟨q1, q2⟩ hq
      have hlt := pairs_lt _ hq
      simp only at hlt
      constructor
      · rintro ⟨rfl, rfl⟩
        omega
      · rintro ⟨rfl, rfl⟩
        omega

theorem c8_diagonal_keeps_initialization_witness :
    Clustering.compute_jacobians_dist_matrix (fun _ _ => 0) [] none "mean" =
      .ok (fun _ _ => (0 : ℚ)) ∧
    Clustering.compute_color_histogram_dist_matrix histCmpW [] none 0 0 = 0 ∧
    Clustering.compute_ssim_scores_fragment_per_fragment (α := ℚ) id (fun _ _ => 1) [] 0 0 = 1 ∧
    Clustering.compute_ssim_scores_fragment_per_fragment_hsv (α := ℚ)
      id (fun a => (a, a, a)) (fun _ _ => 1) [] 0 0 = 1 ∧
    (fun _ _ => (0 : ℚ)) 0 0 = 0 := by
  have h := c8_diagonal_keeps_initialization (α := ℚ) histCmpW [] none
    id (fun _ _ => 1) [] id (fun a => (a, a, a)) (fun _ _ => 1) []
    (fun _ _ => 0) [] none "mean" (fun _ _ => 0) rfl 0
  exact ⟨rfl, h.1, h.2.1, h.2.2.1, h.2.2.2⟩

/-- C2: when a reference feature is supplied, both the histogram engine and
the gradient engine write `0.25*distance_ij + 0.5*distance_i_ref +
0.5*distance_j_ref` into both symmetric cells of each pair `i < j`, where
the distances to the reference are computed by the same pairwise distance
function. -/
theorem c2_reference_blending (c : Clustering.HistCmp) (hists : List (List ℚ)) (r : List ℚ)
    (i j : ℕ) (hij : i < j) (hjn : j < hists.length)
    (pd : NDArr → NDArr → ℚ) (jacs : List NDArr) (jr : NDArr) (combine : String)
    (M : ℕ → ℕ → ℚ) (i2 j2 : ℕ) (hij2 : i2 < j2) (hjn2 : j2 < jacs.length)
    (hM : Clustering.compute_jacobians_dist_matrix pd jacs (some jr) combine = .ok M)
    (g1 g2 g3 g4 g5 g6 g7 g8 g9 g10 g11 g12 : NDArr)
    (hri : Clustering.reshape_jacobians (jacs.getD i2 (.arr [])) = .ok (g1, g2, g3, g4))
    (hrj : Clustering.reshape_jacobians (jacs.getD j2 (.arr [])) = .ok (g5, g6, g7, g8))
    (hrr : Clustering.reshape_jacobians jr = .ok (g9, g10, g11, g12)) :
    (Clustering.compute_color_histogram_dist_matrix c hists (some r) i j =
        Clustering.compute_histograms_similarity c (hists.getD i []) (hists.getD j []) * 0.25 +
        Clustering.compute_histograms_similarity c (hists.getD i []) r * 0.5 +
        Clustering.compute_histograms_similarity c (hists.getD j []) r * 0.5 ∧
      Clustering.compute_color_histogram_dist_matrix c hists (some r) j i =
        Clustering.compute_color_histogram_dist_matrix c hists (some r) i j) ∧
    (M i2 j2 =
        Clustering.compute_jacobians_distance pd combine g1 g2 g3 g4 g5 g6 g7 g8 * 0.25 +
        Clustering.compute_jacobians_distance pd combine g1 g2 g3 g4 g9 g10 g11 g12 * 0.5 +
        Clustering.compute_jacobians_distance pd combine g5 g6 g7 g8 g9 g10 g11 g12 * 0.5 ∧
      M j2 i2 = M i2 j2) := by
  constructor
  · constructor
    · unfold Clustering.compute_color_histogram_dist_matrix
      rw [fillSymm_eq _ _ _ pairs_lt i j, if_pos (mem_pairs.2 ⟨hij, hjn⟩)]
    · unfold Clustering.compute_color_histogram_dist_matrix
      rw [fillSymm_eq _ _ _ pairs_lt i j, fillSymm_eq _ _ _ pairs_lt j i]
      have h1 : (i, j) ∈ pairs hists.length := mem_pairs.2 ⟨hij, hjn⟩
      have h2 : (j, i) ∉ pairs hists.length := by
        intro hc
        have := (mem_pairs.1 hc).1
        omega
      rw [if_pos h1, if_neg h2, if_pos h1]
  · unfold Clustering.compute_jacobians_dist_matrix at hM
    by_cases hv : combine ≠ "mean" ∧ combine ≠ "median"
    · rw [if_pos hv] at hM
      exact absurd hM (by simp)
    · rw [if_neg hv] at hM
      obtain ⟨hde, hsym⟩ :=
        fillSymmM_mem _ (pairs jacs.length) (fun _ _ => 0) i2 j2 pairs_lt
          (mem_pairs.2 ⟨hij2, hjn2⟩) M hM
      simp only [hri, hrj, hrr, exceptBind_ok, exceptPure_eq_ok, Except.ok.injEq] at hde
      exact ⟨hde.symm, hsym⟩

def jacW : NDArr := .arr [.arr [.scalar 0, .scalar 0], .arr [.scalar 0, .scalar 0]]

def rowW : NDArr := (NDArr.scalar 0).reshapeRow

def valW : ℚ :=
  Clustering.compute_jacobians_distance (fun _ _ => 0) "mean"
    rowW rowW rowW rowW rowW rowW rowW rowW * 0.25 +
  Clustering.compute_jacobians_distance (fun _ _ => 0) "mean"
    rowW rowW rowW rowW rowW rowW rowW rowW * 0.5 +
  Clustering.compute_jacobians_distance (fun _ _ => 0) "mean"
    rowW rowW rowW rowW rowW rowW rowW rowW * 0.5

def matW : ℕ → ℕ → ℚ := writeCell (writeCell (fun _ _ => 0) 0 1 valW) 1 0 valW

theorem c2_reference_blending_witness :
    ((0 : ℕ) < 1 ∧ 1 < ([[(1 : ℚ)], [(2 : ℚ)]] : List (List ℚ)).length) ∧
    Clustering.compute_jacobians_dist_matrix (fun _ _ => 0) [jacW, jacW] (some jacW) "mean" =
      .ok matW ∧
    Clustering.reshape_jacobians jacW = .ok (rowW, rowW, rowW, rowW) ∧
    (Clustering.compute_color_histogram_dist_matrix histCmpW [[(1 : ℚ)], [(2 : ℚ)]]
        (some [(3 : ℚ)]) 0 1 =
      Clustering.compute_histograms_similarity histCmpW [(1 : ℚ)] [(2 : ℚ)] * 0.25 +
      Clustering.compute_histograms_similarity histCmpW [(1 : ℚ)] [(3 : ℚ)] * 0.5 +
      Clustering.compute_histograms_similarity histCmpW [(2 : ℚ)] [(3 : ℚ)] * 0.5) ∧
    (matW 0 1 =
      Clustering.compute_jacobians_distance (fun _ _ => 0) "mean"
        rowW rowW rowW rowW rowW rowW rowW rowW * 0.25 +
      Clustering.compute_jacobians_distance (fun _ _ => 0) "mean"
        rowW rowW rowW rowW rowW rowW rowW rowW * 0.5 +
      Clustering.compute_jacobians_distance (fun _ _ => 0) "mean"
        rowW rowW rowW rowW rowW rowW rowW rowW * 0.5 ∧
     matW 1 0 = matW 0 1) := by
  have h := c2_reference_blending histCmpW [[(1 : ℚ)], [(2 : ℚ)]] [(3 : ℚ)] 0 1
    (by decide) (by decide) (fun _ _ => 0) [jacW, jacW] jacW "mean" matW 0 1
    (by decide) (by decide) rfl rowW rowW rowW rowW rowW rowW rowW rowW rowW rowW rowW rowW
    rfl rfl rfl
  exact ⟨⟨by decide, by decide⟩, rfl, rfl, h.1.1, h.2⟩

/-- C6: the cluster materializer performs no length check between the
fragment paths and the labels: with two fragment paths and a single label,
`create_cluster_dirs` succeeds and copies only the first fragment, silently
truncating instead of failing with a configuration error. -/
theorem c6_mismatched_lengths_silently_truncate :
    Clustering.create_cluster_dirs_plan ["a.1.png", "b.2.png"] [0] =
      .ok [("cluster_0", "a.1.png")] := by
  rfl

/-- C7: at `precision = recall = 0`, the `f1` of `clustering/clustering.py`
returns 0 thanks to its zero-denominator guard, but the `f1` of
`utils/clustering.py` has no guard and raises `ZeroDivisionError`; on every
other pair of non-negative inputs the guarded `f1` returns
`2*precision*recall/(precision+recall)`. -/
theorem c7_f1_zero_denominator :
    Clustering.f1 0 0 = 0 ∧
    Utils.f1 0 0 = .error "ZeroDivisionError: float division by zero" ∧
    ∀ p r : ℚ, 0 ≤ p → 0 ≤ r → ¬(p = 0 ∧ r = 0) →
      Clustering.f1 p r = 2 * (p * r) / (p + r) := by
  refine ⟨?_, ?_, ?_⟩
  · unfold Clustering.f1
    rw [if_pos (by norm_num : (0 : ℚ) + 0 = 0)]
  · unfold Utils.f1
    rw [if_pos (by norm_num : (0 : ℚ) + 0 = 0)]
  intro p r hp hr hne
  unfold Clustering.f1
  rw [if_neg]
  intro h0
  exact hne ⟨le_antisymm (by linarith) hp, le_antisymm (by linarith) hr⟩

theorem c7_f1_zero_denominator_witness :
    Clustering.f1 0 0 = 0 ∧ Clustering.f1 1 1 = 2 * (1 * 1) / (1 + 1) :=
  ⟨c7_f1_zero_denominator.1,
    c7_f1_zero_denominator.2.2 1 1 (by norm_num) (by norm_num) (by norm_num)⟩

/-- C9 fails as stated: with `flatten = True`, `compute_jacobians` flattens
the gradient field to a 1-D array (here of four values for a 1×1 resize
target), on which `reshape_jacobians` raises `IndexError` — the nested
indexing `jacobian[0][0]` hits a scalar. -/
theorem c9_flatten_breaks_reshape :
    Clustering.compute_jacobians (fun _ _ _ _ _ => 0) [⟨1, 1⟩] none true =
      .ok ([.arr [.scalar 0, .scalar 0, .scalar 0, .scalar 0]], none) ∧
    Clustering.reshape_jacobians (.arr [.scalar 0, .scalar 0, .scalar 0, .scalar 0]) =
      .error "IndexError: invalid index to scalar variable" := by
  constructor
  · simp [Clustering.compute_jacobians, Clustering.compute_jacobian,
      Clustering.batch_max_width, Clustering.batch_max_height,
      Clustering.compute_image_gradient, grid2D, grid1D, NDArr.flatten,
      NDArr.flattenVals, List.range_succ, List.range_zero]
  · rfl

theorem reshape_compute_image_gradient (g : ℕ → ℕ → ℕ → ℕ → ℚ) (hh ww : ℕ) :
    Clustering.reshape_jacobians (Clustering.compute_image_gradient g hh ww) =
      .ok ((grid2D hh ww (g 0 0)).reshapeRow, (grid2D hh ww (g 0 1)).reshapeRow,
           (grid2D hh ww (g 1 1)).reshapeRow, (grid2D hh ww (g 1 1)).reshapeRow) := rfl

theorem rowLen_reshapeRow_grid2D (hh ww : ℕ) (f : ℕ → ℕ → ℚ) :
    ((grid2D hh ww f).reshapeRow).rowLen = hh * ww := by
  rw [rowLen_reshapeRow, length_flattenVals_grid2D]

/-- C9 (amended): every gradient field produced by `compute_jacobians` with
`flatten = False` — the fragments' fields and the reference's — is
reshape-compatible: `reshape_jacobians` succeeds on it and returns four row
vectors, each of length `max_width * max_height` of the shared resize
target. (With `flatten = True` the field is 1-D and `reshape_jacobians`
raises `IndexError`, see the counterexample.) -/
theorem c9_unflattened_reshape_compatible
    (gval : Clustering.PImage → ℕ → ℕ → ℕ → ℕ → ℚ) (images : List Clustering.PImage)
    (image_ref : Option Clustering.PImage) (jacs : List NDArr) (jref : Option NDArr)
    (h : Clustering.compute_jacobians gval images image_ref false = .ok (jacs, jref))
    (j : NDArr) (hj : j ∈ jacs ++ jref.toList) :
    ∃ g1 g2 g3 g4 : NDArr,
      Clustering.reshape_jacobians j = .ok (g1, g2, g3, g4) ∧
      g1.rowLen = Clustering.batch_max_width images image_ref *
        Clustering.batch_max_height images image_ref ∧
      g2.rowLen = Clustering.batch_max_width images image_ref *
        Clustering.batch_max_height images image_ref ∧
      g3.rowLen = Clustering.batch_max_width images image_ref *
        Clustering.batch_max_height images image_ref ∧
      g4.rowLen = Clustering.batch_max_width images image_ref *
        Clustering.batch_max_height images image_ref := by
  have key : ∀ im : Clustering.PImage,
      ∃ g1 g2 g3 g4 : NDArr,
        Clustering.reshape_jacobians
          (Clustering.compute_jacobian gval im (Clustering.batch_max_width images image_ref)
            (Clustering.batch_max_height images image_ref) false) = .ok (g1, g2, g3, g4) ∧
        g1.rowLen = Clustering.batch_max_width images image_ref *
          Clustering.batch_max_height images image_ref ∧
        g2.rowLen = Clustering.batch_max_width images image_ref *
          Clustering.batch_max_height images image_ref ∧
        g3.rowLen = Clustering.batch_max_width images image_ref *
          Clustering.batch_max_height images image_ref ∧
        g4.rowLen = Clustering.batch_max_width images image_ref *
          Clustering.batch_max_height images image_ref := by
    intro im
    refine ⟨_, _, _, _, reshape_compute_image_gradient (gval im) _ _, ?_, ?_, ?_, ?_⟩ <;>
      simp [rowLen_reshapeRow_grid2D, Nat.mul_comm]
  cases images with
  | nil => exact absurd h (by simp [Clustering.compute_jacobians])
  | cons a l =>
    rw [Clustering.compute_jacobians] at h
    simp only [Except.ok.injEq, Prod.mk.injEq] at h
    obtain ⟨h1, h2⟩ := h
    subst h1
    subst h2
    rcases List.mem_append.1 hj with hj' | hj'
    · obtain ⟨im, -, rfl⟩ := List.mem_map.1 hj'
      exact key im
    · cases image_ref with
      | none => simp at hj'
      | some r0 =>
        simp only [Option.map_some', Option.toList_some, List.mem_singleton] at hj'
        subst hj'
        exact key r0

def pimgW : Clustering.PImage := ⟨1, 1⟩

theorem c9_unflattened_reshape_compatible_witness :
    Clustering.compute_jacobians (fun _ _ _ _ _ => 0) [pimgW] none false =
      .ok ([Clustering.compute_jacobian (fun _ _ _ _ _ => 0) pimgW 1 1 false], none) ∧
    (∃ g1 g2 g3 g4 : NDArr,
      Clustering.reshape_jacobians
        (Clustering.compute_jacobian (fun _ _ _ _ _ => 0) pimgW 1 1 false) =
          .ok (g1, g2, g3, g4) ∧
      g1.rowLen = Clustering.batch_max_width [pimgW] none *
        Clustering.batch_max_height [pimgW] none ∧
      g2.rowLen = Clustering.batch_max_width [pimgW] none *
        Clustering.batch_max_height [pimgW] none ∧
      g3.rowLen = Clustering.batch_max_width [pimgW] none *
        Clustering.batch_max_height [pimgW] none ∧
      g4.rowLen = Clustering.batch_max_width [pimgW] none *
        Clustering.batch_max_height [pimgW] none) := by
  refine ⟨rfl, ?_⟩
  have h := c9_unflattened_reshape_compatible (fun _ _ _ _ _ => 0) [pimgW] none
    [Clustering.compute_jacobian (fun _ _ _ _ _ => 0) pimgW 1 1 false] none rfl
    (Clustering.compute_jacobian (fun _ _ _ _ _ => 0) pimgW 1 1 false) (by simp)
  exact h

/-- C10: with a reference image and `flatten = True`,
`compute_color_histograms` flattens every fragment histogram to a 1-D
length-512 vector, but returns the reference histogram unflattened, keeping
its three-dimensional 8×8×8 shape. -/
theorem c10_reference_histogram_not_flattened {α : Type}
    (histOf : α → ℕ → ℕ → ℕ → ℚ) (images : List α) (r : α) :
    (∀ hgm ∈ (Clustering.compute_color_histograms histOf images (some r) true).1,
        hgm.shape = [512]) ∧
    (Clustering.compute_color_histograms histOf images (some r) true).2 =
      some (grid3D 8 8 8 (histOf r)) ∧
    (grid3D 8 8 8 (histOf r)).shape = [8, 8, 8] := by
  refine ⟨?_, rfl, rfl⟩
  intro hgm hmem
  unfold Clustering.compute_color_histograms at hmem
  simp only [List.mem_map] at hmem
  obtain ⟨im, -, rfl⟩ := hmem
  show ((grid3D 8 8 8 (histOf im)).flatten).shape = [512]
  rw [shape_flatten, length_flattenVals_grid3D]

theorem c10_reference_histogram_not_flattened_witness :
    ((grid3D 8 8 8 (fun _ _ _ => (0 : ℚ))).flatten).shape = [512] ∧
    (Clustering.compute_color_histograms (fun (_ : Unit) _ _ _ => (0 : ℚ))
        [()] (some ()) true).2 = some (grid3D 8 8 8 (fun _ _ _ => (0 : ℚ))) ∧
    (grid3D 8 8 8 (fun _ _ _ => (0 : ℚ))).shape = [8, 8, 8] := by
  have h := c10_reference_histogram_not_flattened (fun (_ : Unit) _ _ _ => (0 : ℚ)) [()] ()
  refine ⟨h.1 _ ?_, h.2.1, h.2.2⟩
  show _ ∈ [(grid3D 8 8 8 (fun _ _ _ => (0 : ℚ))).flatten]
  exact List.mem_singleton.2 rfl

end ArtRec
